import Mathlib

/-!
# Verification of the `wx` weather service (Go) against its specification

Shallow embedding of the core logic of the `wx` repository:

* `internal/util/util.go`      — ICAO location validation, CSV header
  resolution, TTL calculation, conditional fetch;
* `internal/database/database.go` — the Redis-backed storage layer
  (modelled as an explicit key-value state with absolute expiry instants);
* `internal/wxupdate/wxupdate.go` and the `wxserver` package — the
  ingestion row loops and the HTTP request handlers (modelled as pure
  functions from the request and the store state to a response).

Go `string` values are modelled as Lean `String`; where Go indexes raw
bytes, the UTF-8 byte sequence of the string is used (`goBytes`), so byte
length and byte indexing agree with Go. Go `int`/`int64` are modelled as
`Int` (no claim involves 64-bit overflow). Go `float64` fields that are
only carried through (latitude/longitude) are modelled as `Rat`; parsing
and formatting of floats, RFC3339/RFC1123 time parsing, and the real clock
are standard-library collaborators outside this repository and are passed
in as explicit function/value parameters.
-/

/-- UTF-8 encoding of a single character, as the list of its byte values.
Mirrors how Go strings store text, so that `goBytes` agrees with Go's
byte-level `len` and indexing. -/
def charUtf8 (c : Char) : List Nat :=
  let n := c.toNat
  if n < 128 then [n]
  else if n < 2048 then
    [192 + n / 64, 128 + n % 64]
  else if n < 65536 then
    [224 + n / 4096, 128 + (n / 64) % 64, 128 + n % 64]
  else
    [240 + n / 262144, 128 + (n / 4096) % 64, 128 + (n / 64) % 64, 128 + n % 64]

/-- The byte sequence of a Go string (UTF-8 bytes of its characters). -/
def goBytes (s : String) : List Nat :=
  s.data.foldr (fun c acc => charUtf8 c ++ acc) []

/-!
## `util.ValidateICAOLocation`

```go
func ValidateICAOLocation(loc string) bool {
    if len(loc) != 4 { return false }
    if loc[0] < 'A' && loc[1] > 'Z' { return false }
    for i := 1; i < len(loc); i++ {
        c := loc[i]
        if (c < 'A' || c > 'Z') && (c < '0' || c > '9') { return false }
    }
    return true
}
```
Byte values: `'A'` = 65, `'Z'` = 90, `'0'` = 48, `'9'` = 57.
-/

def ValidateICAOLocation (loc : String) : Bool :=
  let b := goBytes loc
  if b.length ≠ 4 then false
  else if b.getD 0 0 < 65 && 90 < b.getD 1 0 then false
  else (b.drop 1).all fun c => !((c < 65 || 90 < c) && (c < 48 || 57 < c))

/-- The location-code shape stated by the spec (and by the function's own
doc comment): exactly 4 bytes, first byte `A`-`Z`, remaining three bytes
`A`-`Z` or `0`-`9` (pattern `[A-Z][A-Z0-9]{3}`). Written from the spec's
words, to compare with `ValidateICAOLocation`. -/
def specValidLocation (loc : String) : Bool :=
  let b := goBytes loc
  (b.length = 4 : Bool) &&
  (65 ≤ b.getD 0 0 && b.getD 0 0 ≤ 90) &&
  ((b.drop 1).all fun c => (65 ≤ c && c ≤ 90) || (48 ≤ c && c ≤ 57))

/-!
## `util.ExpireSeconds`

```go
func ExpireSeconds(timeStr string, expire int64) (int64, error) {
    tm, err := time.Parse(timeFormat, timeStr)
    if err != nil { return expire, err }
    return tm.Unix() + expire - time.Now().Unix(), nil
}
```
`time.Parse` (RFC3339) and `time.Now` are standard-library collaborators:
the parser is passed in as `parse : String → Option Int` (the Unix instant
of the parsed time, `none` on parse failure) and the current Unix instant
as `now`. The Go function returns a pair (value, error); the error is
modelled as `Option String`. -/
def ExpireSeconds (parse : String → Option Int) (timeStr : String)
    (expire : Int) (now : Int) : Int × Option String :=
  match parse timeStr with
  | none => (expire, some ("cannot parse time " ++ timeStr))
  | some u => (u + expire - now, none)

/-- A concrete RFC3339 parser fragment used to instantiate witnesses:
defined on a single fixed timestamp string. -/
def parseOneStamp : String → Option Int := fun s =>
  if s = "2020-01-01T00:00:00Z" then some 1577836800 else none

/-!
## `util.ParseCsvHeader`

```go
func ParseCsvHeader(src *csv.Reader, fieldNames []string) ([]int, error) {
    if len(fieldNames) < 1 {
        return make([]int, 0), errors.New("No field names specified")
    }
    result := make([]int, len(fieldNames))
    for i := range result { result[i] = -1 }
    src.FieldsPerRecord = -1
    for {
        record, err := src.Read()
        if err != nil { return result, fmt.Errorf(...) }
        if len(record) > 1 {
            src.FieldsPerRecord = len(record)
            for i, s := range record {
                for j, f := range fieldNames {
                    if s == f && result[j] == -1 { result[j] = i }
                }
            }
            break
        }
    }
    return result, nil
}
```
The record stream is modelled as the list of records the reader would
yield; reader exhaustion (EOF or a read error) is the empty-list case.
The `FieldsPerRecord` bookkeeping only constrains later reads of the same
reader and is not part of the resolver's result, so it is not modelled.
-/

/-- The Go inner loop over `fieldNames`: set `result[j] := i` for every
`j` with `fieldNames[j] == s` whose slot still holds `-1`. -/
def assignOne (fieldNames : List String) (result : List Int) (i : Nat)
    (s : String) : List Int :=
  (fieldNames.zip result).map fun p =>
    if p.1 = s ∧ p.2 = -1 then (i : Int) else p.2

/-- The Go outer loop `for i, s := range record` over the header row,
with `i` the running column index. -/
def scanHeaderRow (fieldNames : List String) : Nat → List String → List Int → List Int
  | _, [], result => result
  | i, s :: rest, result =>
    scanHeaderRow fieldNames (i + 1) rest (assignOne fieldNames result i s)

/-- The Go `for { record, err := src.Read(); ... }` loop: skip records
with at most one field; the first record with more than one field is the
header row. -/
def parseCsvHeaderLoop (fieldNames : List String) :
    List (List String) → List Int → List Int × Option String
  | [], result => (result, some "stream exhausted parsing CSV header")
  | r :: rs, result =>
    if 1 < r.length then (scanHeaderRow fieldNames 0 r result, none)
    else parseCsvHeaderLoop fieldNames rs result

def ParseCsvHeader (rows : List (List String)) (fieldNames : List String) :
    List Int × Option String :=
  if fieldNames.length < 1 then ([], some "No field names specified")
  else parseCsvHeaderLoop fieldNames rows (fieldNames.map fun _ => (-1 : Int))

/-- Index of the first occurrence of `f` in a list, if any. -/
def firstIdx (f : String) : List String → Option Nat
  | [] => none
  | s :: rest => if s = f then some 0 else (firstIdx f rest).map (· + 1)

/-- The column index the resolver reports for target name `f` given header
row `hdr`: the first occurrence of `f`, or `-1` when absent. -/
def headerIdx (hdr : List String) (f : String) : Int :=
  match firstIdx f hdr with
  | some k => (k : Int)
  | none => -1

/-!
## `util.GetFromURL` — conditional fetch

```go
head, err := httpClient.Head(url)
if err != nil { return nil, ... }
if head.StatusCode != http.StatusOK { return nil, ... }
lastModified := head.Header["Last-Modified"]
if len(lastModified) == 1 {
    lastModTime, err := time.Parse(time.RFC1123, lastModified[0])
    if err != nil { return nil, ... }
    if lastModTime.Before(lastUpdated) { return nil, nil }
}
resp, err := httpClient.Get(url)
if resp.StatusCode != http.StatusOK { return nil, ... }
return resp.Body, err
```
The HTTP client is an external collaborator: the HEAD response (status and
`Last-Modified` header values), the GET status and body, and the RFC1123
date parser are passed in as parameters. Transport-level failures of
HEAD/GET (which return an error in Go) are outside the modelled
parameters. Instants are Unix seconds; `time.Before` is strict `<`.
`.ok none` models the Go `return nil, nil` no-op; `.ok (some body)` the
downloaded body. -/
def GetFromURL (parseHTTPDate : String → Option Int) (headStatus : Nat)
    (lastModified : List String) (getStatus : Nat) (body : String)
    (lastUpdated : Int) : Except String (Option String) :=
  if headStatus ≠ 200 then .error "HEAD request resulted in non-OK code"
  else
    match lastModified with
    | [lm] =>
      match parseHTTPDate lm with
      | none => .error "Cannot parse Last-Modified"
      | some lastModTime =>
        if lastModTime < lastUpdated then .ok none
        else if getStatus ≠ 200 then .error "Request resulted in non-OK code"
        else .ok (some body)
    | _ =>
      if getStatus ≠ 200 then .error "Request resulted in non-OK code"
      else .ok (some body)

/-!
## `database.go` — the Redis-backed storage layer

`DataICAOLocation` mirrors the Go struct; Go zero values are the field
defaults (JSON `omitempty` drops exactly the zero-valued fields, so a
record whose only non-zero field is `Location` is serialized with only the
location code populated). `float64` is modelled as `Rat` (no claim
performs float arithmetic; the values are only carried through).
-/
structure DataICAOLocation where
  Location : String := ""
  Metar : String := ""
  Taf : String := ""
  Name : String := ""
  City : String := ""
  CountryCode : String := ""
  Latitude : Rat := 0
  Longitude : Rat := 0
  AltitudeMeters : Int := 0
  AltitudeFeet : Int := 0
deriving DecidableEq

def DbRedisICAOPrefixLocation : String := "wx:icao:loc:"

def DbRedisICAOPrefixMetar : String := "wx:icao:metar:"

def DbRedisICAOPrefixTaf : String := "wx:icao:taf:"

/-- The Redis hash stored for one location (`HSET` fields `name`, `city`,
`country`, `lat`, `lon`, `alt_ft`); Redis stores every field value as a
string, so all six fields are strings here. -/
structure LocHash where
  name : String
  city : String
  country : String
  lat : String
  lon : String
  altFt : String
deriving DecidableEq

/-- The Redis state: string keys (METAR/TAF, with an absolute expiry
instant) and hash keys (location records, no expiry). The most recent
write of a key is the list head. -/
structure Store where
  strs : List (String × String × Int) := []
  hashes : List (String × LocHash) := []
deriving DecidableEq

/-- Modelled from the spec: the storage engine itself (Redis) is not part
of this repository — only the repository's calls to it are. Per §4.4/§4.3
of the spec, `SET key value EX ttl` stores the value with expiry `now +
ttl` and reports success; a non-positive TTL is accepted as "expire
immediately" (the value is never visible to a later read), not as an
error. -/
def redisSetEx (st : Store) (now : Int) (key value : String) (ttl : Int) : Store :=
  { st with strs := (key, value, now + ttl) :: st.strs }

/-- Modelled from the spec: Redis `GET` of a string key — the stored value
when present and unexpired at instant `now`, otherwise nil. -/
def redisGet (st : Store) (now : Int) (key : String) : Option String :=
  match st.strs.find? (fun e => e.1 == key) with
  | some e => if now < e.2.2 then some e.2.1 else none
  | none => none

/-- Modelled from the spec: Redis `HGETALL` of a location hash key
(`none` when the key is absent, which is also what `EXISTS` reports). -/
def redisHGet (st : Store) (key : String) : Option LocHash :=
  (st.hashes.find? (fun e => e.1 == key)).map (fun e => e.2)

/-- Modelled from the spec: Redis `HSET` of a location hash key. -/
def redisHSet (st : Store) (key : String) (h : LocHash) : Store :=
  { st with hashes := (key, h) :: st.hashes }

/-- `getMetarStrs`: `MGET` over the prefixed METAR keys; `redis.Strings`
turns nil replies into the empty-string marker. -/
def getMetarStrs (st : Store) (now : Int) (loc : List String) : List String :=
  loc.map fun l => (redisGet st now (DbRedisICAOPrefixMetar ++ l)).getD ""

/-- `getTafStrs`: `MGET` over the prefixed TAF keys. -/
def getTafStrs (st : Store) (now : Int) (loc : List String) : List String :=
  loc.map fun l => (redisGet st now (DbRedisICAOPrefixTaf ++ l)).getD ""

/-- `makeLocationData`: rebuild a `DataICAOLocation` from the stored hash.
`strconv.Atoi` and `strconv.ParseFloat` are standard-library collaborators
passed in as `parseInt`/`parseFloat`. Go computes the derived altitude as
`int(alt * 3048 / 10000)` with `int` arithmetic: multiplication then
integer division truncating toward zero (`Int.tdiv`). -/
def makeLocationData (parseInt : String → Option Int)
    (parseFloat : String → Option Rat) (loc : String) (s : LocHash) :
    Except String DataICAOLocation :=
  match parseInt s.altFt with
  | none => .error "Atoi error"
  | some alt =>
    match parseFloat s.lat with
    | none => .error "ParseFloat error lat"
    | some lat =>
      match parseFloat s.lon with
      | none => .error "ParseFloat error lon"
      | some lon =>
        .ok { Location := loc, Name := s.name, City := s.city,
              CountryCode := s.country, AltitudeFeet := alt,
              AltitudeMeters := (alt * 3048).tdiv 10000,
              Latitude := lat, Longitude := lon }

/-- The `for i, l := range loc` loop of `GetICAOLocationData`, walking the
locations zipped with their (positionally aligned) METAR and TAF strings:
locations without a hash record are skipped; a `makeLocationData` failure
aborts with that error. -/
def getICAOLocationDataLoop (parseInt : String → Option Int)
    (parseFloat : String → Option Rat) (st : Store) :
    List (String × String × String) → Except String (List DataICAOLocation)
  | [] => .ok []
  | (l, m, t) :: rest =>
    match redisHGet st (DbRedisICAOPrefixLocation ++ l) with
    | some h =>
      match makeLocationData parseInt parseFloat l h with
      | .error e => .error e
      | .ok ld =>
        match getICAOLocationDataLoop parseInt parseFloat st rest with
        | .error e => .error e
        | .ok r => .ok ({ ld with Metar := m, Taf := t } :: r)
    | none => getICAOLocationDataLoop parseInt parseFloat st rest

def GetICAOLocationData (parseInt : String → Option Int)
    (parseFloat : String → Option Rat) (st : Store) (now : Int)
    (loc : List String) : Except String (List DataICAOLocation) :=
  let metars := getMetarStrs st now loc
  let tafs := getTafStrs st now loc
  getICAOLocationDataLoop parseInt parseFloat st (loc.zip (metars.zip tafs))

/-- `GetMETARs`: locations whose METAR string is non-empty, with only the
`Location` and `Metar` fields initialised. -/
def GetMETARs (st : Store) (now : Int) (loc : List String) :
    List DataICAOLocation :=
  ((loc.zip (getMetarStrs st now loc)).filter fun p => 0 < p.2.length).map
    fun p => { Location := p.1, Metar := p.2 }

/-- `GetTAFs`: locations whose TAF string is non-empty, with only the
`Location` and `Taf` fields initialised. -/
def GetTAFs (st : Store) (now : Int) (loc : List String) :
    List DataICAOLocation :=
  ((loc.zip (getTafStrs st now loc)).filter fun p => 0 < p.2.length).map
    fun p => { Location := p.1, Taf := p.2 }

/-- `LocationExists`: Redis `EXISTS` on the prefixed location hash key. -/
def LocationExists (st : Store) (loc : String) : Bool :=
  (redisHGet st (DbRedisICAOPrefixLocation ++ loc)).isSome

/-- `SetMETAR`: `SET` with `EX expire` on the prefixed METAR key; the
engine (spec-modelled, see `redisSetEx`) reports success. -/
def SetMETAR (st : Store) (now : Int) (loc metar : String) (expire : Int) :
    Store × Option String :=
  (redisSetEx st now (DbRedisICAOPrefixMetar ++ loc) metar expire, none)

/-- `SetTAF`: `SET` with `EX expire` on the prefixed TAF key. -/
def SetTAF (st : Store) (now : Int) (loc taf : String) (expire : Int) :
    Store × Option String :=
  (redisSetEx st now (DbRedisICAOPrefixTaf ++ loc) taf expire, none)

/-- `SetDataICAOLocation`: `EXISTS` on the location hash key; when absent,
`HSET` the six fields (floats and the altitude are serialized by the
client library, passed in as `fmtFloat`/`fmtInt`); when present, no write.
-/
def SetDataICAOLocation (fmtFloat : Rat → String) (fmtInt : Int → String)
    (st : Store) (data : DataICAOLocation) : Store × Option String :=
  if (redisHGet st (DbRedisICAOPrefixLocation ++ data.Location)).isSome then
    (st, none)
  else
    (redisHSet st (DbRedisICAOPrefixLocation ++ data.Location)
      { name := data.Name, city := data.City, country := data.CountryCode,
        lat := fmtFloat data.Latitude, lon := fmtFloat data.Longitude,
        altFt := fmtInt data.AltitudeFeet }, none)

/-!
## `wxserver` — request handlers

An HTTP response is either an error status or a JSON body (a single
record for single-location requests, an array for batch requests). JSON
encoding of these records cannot fail and is modelled as the identity.
-/
inductive Response where
  | httpError (status : Nat)
  | jsonSingle (d : DataICAOLocation)
  | jsonList (ds : List DataICAOLocation)
deriving DecidableEq

def maxLocations : Nat := 16

/-- `queryDatabase`: select the storage reads for an endpoint; the
`location` endpoint clears the `Metar`/`Taf` fields of each record even
though they were internally fetched. -/
def queryDatabase (parseInt : String → Option Int)
    (parseFloat : String → Option Rat) (st : Store) (now : Int)
    (endpoint : String) (locations : List String) :
    Except String (List DataICAOLocation) :=
  if endpoint = "metar" then .ok (GetMETARs st now locations)
  else if endpoint = "taf" then .ok (GetTAFs st now locations)
  else if endpoint = "location" then
    match GetICAOLocationData parseInt parseFloat st now locations with
    | .error e => .error e
    | .ok ld => .ok (ld.map fun d => { d with Metar := "", Taf := "" })
  else if endpoint = "all" then
    GetICAOLocationData parseInt parseFloat st now locations
  else .error "Unknown Endpoint"

/-- `serveMultipleLocations`: reject with 403 when more than
`maxLocations` codes are supplied (before any validation or storage
read — the store appears nowhere in that branch); reject with 422 when
any code fails validation; otherwise query and serve the JSON array
(500 on a storage error). -/
def serveMultipleLocations (parseInt : String → Option Int)
    (parseFloat : String → Option Rat) (st : Store) (now : Int)
    (endpoint : String) (locations : List String) : Response :=
  if maxLocations < locations.length then .httpError 403
  else if !(locations.all fun l => ValidateICAOLocation l) then .httpError 422
  else
    match queryDatabase parseInt parseFloat st now endpoint locations with
    | .error _ => .httpError 500
    | .ok ld => .jsonList ld

/-- `serveSingleLocation`: 422 on an invalid code; query the endpoint for
the one code; on an empty result check `LocationExists` — 404 when the
location hash key is absent, otherwise a record with only the location
code populated; an inconsistent multi-record result is a 500; otherwise
serve the single record. -/
def serveSingleLocation (parseInt : String → Option Int)
    (parseFloat : String → Option Rat) (st : Store) (now : Int)
    (endpoint : String) (location : String) : Response :=
  if !(ValidateICAOLocation location) then .httpError 422
  else
    match queryDatabase parseInt parseFloat st now endpoint [location] with
    | .error _ => .httpError 500
    | .ok ld =>
      if ld.length < 1 then
        if LocationExists st location = false then .httpError 404
        else .jsonSingle { Location := location }
      else if 1 < ld.length then .httpError 500
      else .jsonSingle (ld.headD {})

/-!
## `wxupdate` — ingestion row loops

The row loops of `UpdateMetars`/`UpdateTafs` after header resolution.
Each CSV read either yields a record or fails (`Except.error`), which
aborts the remaining rows of the cycle. Column indexing `record[col]` is
modelled with `List.getD` (the CSV reader's field-count enforcement makes
an out-of-range index a read error in Go). The loop produces the log
lines emitted and the storage writes performed, in order; store-write
errors (logged in Go, never aborting) do not occur in the pure store
model. -/
structure MetarCols where
  rawText : Nat
  station : Nat
  obsTime : Nat
  mtype : Nat

structure TafCols where
  rawText : Nat
  station : Nat
  timeTo : Nat

/-- One `SetMETAR`/`SetTAF` call: location key, stored value, TTL. -/
structure ReportWrite where
  loc : String
  value : String
  expire : Int
deriving DecidableEq

/-- The `UpdateMetars` row loop: TTL from `observation_time` with a
3-hour window; the stored value is `metar_type + " " + raw_text`; a
timestamp parse failure is logged, and the write still happens with the
value `ExpireSeconds` returned (its `expire` argument, `3600*3`). -/
def updateMetarsRows (parse : String → Option Int) (now : Int)
    (cols : MetarCols) :
    List (Except String (List String)) → List String × List ReportWrite
  | [] => ([], [])
  | .error e :: _ => (["Error reading METAR CSV: " ++ e], [])
  | .ok record :: rest =>
    let tfield := record.getD cols.obsTime ""
    let res := ExpireSeconds parse tfield (3600 * 3) now
    let logs1 := match res.2 with
      | some _ => ["Cannot parse METAR time " ++ tfield]
      | none => []
    let metar := record.getD cols.mtype "" ++ " " ++ record.getD cols.rawText ""
    let w : ReportWrite :=
      { loc := record.getD cols.station "", value := metar, expire := res.1 }
    let r := updateMetarsRows parse now cols rest
    (logs1 ++ r.1, w :: r.2)

/-- The `UpdateTafs` row loop: TTL from `valid_time_to` with window 0;
the stored value is `raw_text`; a timestamp parse failure is logged, and
the write still happens with the value `ExpireSeconds` returned (its
`expire` argument, `0`). -/
def updateTafsRows (parse : String → Option Int) (now : Int)
    (cols : TafCols) :
    List (Except String (List String)) → List String × List ReportWrite
  | [] => ([], [])
  | .error e :: _ => (["Error reading TAFs CSV: " ++ e], [])
  | .ok record :: rest =>
    let tfield := record.getD cols.timeTo ""
    let res := ExpireSeconds parse tfield 0 now
    let logs1 := match res.2 with
      | some _ => ["Cannot parse TAFs time to " ++ tfield]
      | none => []
    let w : ReportWrite :=
      { loc := record.getD cols.station "",
        value := record.getD cols.rawText "", expire := res.1 }
    let r := updateTafsRows parse now cols rest
    (logs1 ++ r.1, w :: r.2)

/-- A parser fixture that fails on every input, for witnesses. -/
def parseNone : String → Option Int := fun _ => none

/-- A float-parser fixture that fails on every input, for witnesses. -/
def parseFloatNone : String → Option Rat := fun _ => none

/-- The empty store. -/
def emptyStore : Store := {}

/-- A store holding only a METAR for UKLL (unexpired until instant 100)
and no location record. -/
def stMetarOnly : Store :=
  { strs := [("wx:icao:metar:UKLL", "METAR X", 100)], hashes := [] }

/-- An RFC1123 parser fixture defined on one fixed header value. -/
def parseStamp100 : String → Option Int := fun s =>
  if s = "Thu, 02 Jan 2020 00:00:00 GMT" then some 100 else none

/-- An integer-parser fixture defined on the single string `2`. -/
def parseInt2 : String → Option Int := fun s =>
  if s = "2" then some 2 else none

/-- A float-parser fixture that parses everything as `0`. -/
def parseFloatZero : String → Option Rat := fun _ => some 0

/-- A stored location hash, for witnesses. -/
def locHashA : LocHash :=
  { name := "Old Name", city := "Old City", country := "UA",
    lat := "1.5", lon := "2.5", altFt := "100" }

/-- A store holding only the location record `locHashA` for UKLL. -/
def stLocA : Store :=
  { strs := [], hashes := [("wx:icao:loc:UKLL", locHashA)] }

/-- Client-library float formatting fixture. -/
def fmtRatFix : Rat → String := fun _ => "9.9"

/-- Client-library integer formatting fixture. -/
def fmtIntFix : Int → String := fun _ => "9"

/-- C1: the claim states that `ValidateICAOLocation` accepts exactly the
strings matching `[A-Z][A-Z0-9]{3}` and in particular rejects `"1KLL"`.
The code agrees on `"UKLL"` (true) and `"UKLLL"` (false), but accepts
`"1KLL"`: the first-character guard reads `loc[0] < 'A' && loc[1] > 'Z'`
instead of checking `loc[0]` against both bounds, so a non-letter first
byte slips through whenever the second byte is not above `'Z'`. This
contradicts the function's own doc comment (pattern `[A-Z]([A-Z0-9]){3}`)
and the served help page, which names `1KLL` as a rejected example — the
code, not the claim, is wrong. This theorem evaluates the embedded code at
the agreeing inputs and at the failing input, against the spec's shape. -/
theorem validateICAOLocation_bug_eval :
    ValidateICAOLocation "UKLL" = true ∧
    ValidateICAOLocation "UKLLL" = false ∧
    ValidateICAOLocation "1KLL" = true ∧
    specValidLocation "1KLL" = false := by
  decide

/-- C4: for a parsable timestamp the TTL calculator returns exactly
`unix(T) + W - unix(now)` with no error (a value that may be zero or
negative), the value is strictly decreasing as `now` advances, and a
timestamp that fails to parse yields an error together with the fallback
value `W` (no crash). -/
theorem expireSeconds_spec (parse : String → Option Int) (t : String)
    (W now now' u : Int) :
    (parse t = some u → ExpireSeconds parse t W now = (u + W - now, none)) ∧
    (parse t = some u → now < now' →
      (ExpireSeconds parse t W now').1 < (ExpireSeconds parse t W now).1) ∧
    (parse t = none →
      (ExpireSeconds parse t W now).2.isSome = true ∧
      (ExpireSeconds parse t W now).1 = W) := by
  refine ⟨fun h => ?_, fun h hlt => ?_, fun h => ?_⟩
  · simp [ExpireSeconds, h]
  · simp [ExpireSeconds, h]
    omega
  · simp [ExpireSeconds, h]

/-- Witness for C4 at the concrete timestamp `2020-01-01T00:00:00Z`
(Unix 1577836800), window 3600, now 1577840400 and 1577840401: the exact
formula (here evaluating to 0), strict decrease, and the error on an
unparsable string. -/
theorem expireSeconds_spec_witness :
    ExpireSeconds parseOneStamp "2020-01-01T00:00:00Z" 3600 1577840400 =
      (1577836800 + 3600 - 1577840400, none) ∧
    (ExpireSeconds parseOneStamp "2020-01-01T00:00:00Z" 3600 1577840401).1 <
      (ExpireSeconds parseOneStamp "2020-01-01T00:00:00Z" 3600 1577840400).1 ∧
    (ExpireSeconds parseOneStamp "nonsense" 3600 1577840400).2.isSome = true := by
  refine ⟨?_, ?_, ?_⟩
  · exact (expireSeconds_spec parseOneStamp "2020-01-01T00:00:00Z"
      3600 1577840400 1577840400 1577836800).1 (by decide)
  · exact (expireSeconds_spec parseOneStamp "2020-01-01T00:00:00Z"
      3600 1577840400 1577840401 1577836800).2.1 (by decide) (by decide)
  · exact ((expireSeconds_spec parseOneStamp "nonsense"
      3600 1577840400 1577840400 0).2.2 (by decide)).1

/-- Zipping a list with a map over its own zip pushes the map inside. -/
theorem zipMapSelf {α β γ : Type} (l : List α) (l' : List β) (g : α × β → γ) :
    l.zip ((l.zip l').map g) = (l.zip l').map fun p => (p.1, g p) := by
  induction l generalizing l' with
  | nil => simp
  | cons a as ih =>
    cases l' with
    | nil => simp
    | cons b bs => simp [ih]

/-- Zipping a list with a map of itself pairs each element with its image. -/
theorem zipSelfMap {α β : Type} (l : List α) (g : α → β) :
    l.zip (l.map g) = l.map fun a => (a, g a) := by
  induction l with
  | nil => rfl
  | cons a as ih => simp [ih]

/-- `assignOne` keeps the length of the result vector. -/
theorem assignOne_length (fns : List String) (res : List Int) (i : Nat)
    (s : String) (hlen : res.length = fns.length) :
    (assignOne fns res i s).length = fns.length := by
  simp [assignOne, hlen]

/-- Characterization of the Go header-row scan: slot `j` receives the
first column index at which `fieldNames[j]` occurs in the remaining part
of the row (offset by the running index `i`), stays `-1` when the name
does not occur, and slots already holding a non-`-1` value are kept. -/
theorem scanHeaderRow_eq (fns : List String) (rec : List String) :
    ∀ (i : Nat) (res : List Int), res.length = fns.length →
    scanHeaderRow fns i rec res =
      (fns.zip res).map fun p =>
        if p.2 = -1 then
          match firstIdx p.1 rec with
          | some k => ((i + k : Nat) : Int)
          | none => -1
        else p.2 := by
  induction rec with
  | nil =>
    intro i res hlen
    have h1 : ((fns.zip res).map fun p =>
        if p.2 = -1 then
          (match firstIdx p.1 [] with
           | some k => ((i + k : Nat) : Int)
           | none => -1)
        else p.2) = (fns.zip res).map Prod.snd := by
      apply List.map_congr_left
      intro p _
      by_cases hp : p.2 = -1 <;> simp [firstIdx, hp]
    rw [scanHeaderRow, h1, List.map_snd_zip]
    omega
  | cons s rest ih =>
    intro i res hlen
    rw [scanHeaderRow, ih (i + 1) _ (assignOne_length fns res i s hlen)]
    rw [assignOne, zipMapSelf, List.map_map]
    apply List.map_congr_left
    intro p _
    simp only [Function.comp_apply]
    by_cases h1 : p.1 = s
    · by_cases h2 : p.2 = -1
      · rw [if_pos (show p.1 = s ∧ p.2 = -1 from ⟨h1, h2⟩),
          if_neg (show ¬ ((i : Int) = -1) by omega), if_pos h2]
        simp [firstIdx, h1]
      · rw [if_neg (show ¬ (p.1 = s ∧ p.2 = -1) from fun hc => h2 hc.2),
          if_neg h2, if_neg h2]
    · rw [if_neg (show ¬ (p.1 = s ∧ p.2 = -1) from fun hc => h1 hc.1)]
      by_cases h2 : p.2 = -1
      · rw [if_pos h2, if_pos h2]
        have hs : ¬ (s = p.1) := fun hc => h1 hc.symm
        simp only [firstIdx, if_neg hs]
        cases hfi : firstIdx p.1 rest with
        | none => simp
        | some k =>
          simp only [Option.map_some']
          push_cast
          ring
      · rw [if_neg h2, if_neg h2]

/-- Records with at most one field are skipped before the header row. -/
theorem parseCsvHeaderLoop_skip (fns : List String) (pre : List (List String))
    (hpre : ∀ r ∈ pre, r.length ≤ 1) (rows : List (List String))
    (res : List Int) :
    parseCsvHeaderLoop fns (pre ++ rows) res = parseCsvHeaderLoop fns rows res := by
  induction pre with
  | nil => rfl
  | cons r rs ih =>
    have hr : ¬ 1 < r.length := by
      have := hpre r (by simp)
      omega
    rw [List.cons_append, parseCsvHeaderLoop, if_neg hr]
    exact ih fun q hq => hpre q (by simp [hq])

/-- C3 (amended): the CSV Header Resolver skips rows until the first row
with more than one field, maps each target name to its zero-based column
index by exact string match with the first occurrence winning on
duplicates (so header row `b,a,c` preceded by single-field rows with
targets `[a,b]` yields `[1,0]`); a requested name absent from the
discovered header row is reported with index `-1`, but `ParseCsvHeader`
itself returns success (no error) in that case — detecting the `-1`
sentinel and aborting the cycle is left to the callers. -/
theorem parseCsvHeader_spec (pre : List (List String))
    (hpre : ∀ r ∈ pre, r.length ≤ 1)
    (hdr : List String) (hhdr : 1 < hdr.length)
    (rest : List (List String)) (fns : List String) (hfns : fns ≠ []) :
    ParseCsvHeader (pre ++ hdr :: rest) fns =
      (fns.map fun f => headerIdx hdr f, none) := by
  have hnot : ¬ fns.length < 1 := by
    cases fns with
    | nil => exact absurd rfl hfns
    | cons a as => simp
  have hlen0 : (fns.map fun _ => (-1 : Int)).length = fns.length := by simp
  rw [ParseCsvHeader, if_neg hnot, parseCsvHeaderLoop_skip fns pre hpre,
    parseCsvHeaderLoop, if_pos hhdr, scanHeaderRow_eq fns hdr 0 _ hlen0,
    zipSelfMap, List.map_map]
  simp only [Prod.mk.injEq, and_true]
  apply List.map_congr_left
  intro f _
  simp only [Function.comp_apply, if_pos rfl, headerIdx]
  cases hfi : firstIdx f hdr with
  | none => simp
  | some k => simp

/-- Witness for C3 (amended) at the spec's concrete example: two
single-field diagnostic rows, header row `b,a,c`, targets `[a,b]`. -/
theorem parseCsvHeader_spec_witness :
    ParseCsvHeader [["no"], ["fields"], ["b", "a", "c"]] ["a", "b"] =
      (["a", "b"].map fun f => headerIdx ["b", "a", "c"] f, none) := by
  exact parseCsvHeader_spec [["no"], ["fields"]] (by decide)
    ["b", "a", "c"] (by decide) [] ["a", "b"] (by decide)

/-- C3 counterexample: with targets `[a,b,z]` and discovered header row
`b,a,c`, the name `z` is absent, yet `ParseCsvHeader` reports no error —
the error component of the result is `none` — while the claim states that
resolution fails with an error reported to the caller. The indices are
still `[1,0,-1]` as the claim describes. -/
theorem parseCsvHeader_missing_name_no_error :
    ParseCsvHeader [["info"], ["diag"], ["b", "a", "c"]] ["a", "b", "z"] =
      ([1, 0, -1], none) := by
  decide

/-- A key just written by `SET ... EX ttl` reads back as the value while
`now + ttl` is in the future, and as nil from then on. -/
theorem redisGet_after_set (st : Store) (now now' : Int) (key value : String)
    (ttl : Int) :
    redisGet (redisSetEx st now key value ttl) now' key =
      if now' < now + ttl then some value else none := by
  unfold redisGet redisSetEx
  rw [List.find?_cons_of_pos _ (by simp)]

/-- C2 (amended): a METAR/TAF row whose timestamp fails to parse is
logged, but it is not skipped: the storage write for that row still
happens, with the fallback TTL that `ExpireSeconds` returns on a parse
failure — the full 3-hour window (10800 s) for a METAR row, 0 for a TAF
row — and the cycle continues with the remaining rows. -/
theorem updateRows_badTimestamp (parse : String → Option Int) (now : Int)
    (mcols : MetarCols) (tcols : TafCols) (mrec trec : List String)
    (mrest trest : List (Except String (List String)))
    (hm : parse (mrec.getD mcols.obsTime "") = none)
    (ht : parse (trec.getD tcols.timeTo "") = none) :
    updateMetarsRows parse now mcols (.ok mrec :: mrest) =
      (("Cannot parse METAR time " ++ mrec.getD mcols.obsTime "") ::
          (updateMetarsRows parse now mcols mrest).1,
        { loc := mrec.getD mcols.station "",
          value := mrec.getD mcols.mtype "" ++ " " ++ mrec.getD mcols.rawText "",
          expire := 3600 * 3 } :: (updateMetarsRows parse now mcols mrest).2) ∧
    updateTafsRows parse now tcols (.ok trec :: trest) =
      (("Cannot parse TAFs time to " ++ trec.getD tcols.timeTo "") ::
          (updateTafsRows parse now tcols trest).1,
        { loc := trec.getD tcols.station "",
          value := trec.getD tcols.rawText "", expire := 0 } ::
          (updateTafsRows parse now tcols trest).2) := by
  constructor
  · have hm2 : ExpireSeconds parse (mrec.getD mcols.obsTime "") (3600 * 3) now =
        (3600 * 3, some ("cannot parse time " ++ mrec.getD mcols.obsTime "")) := by
      unfold ExpireSeconds
      rw [hm]
    simp only [updateMetarsRows, hm2, List.singleton_append]
  · have ht2 : ExpireSeconds parse (trec.getD tcols.timeTo "") 0 now =
        (0, some ("cannot parse time " ++ trec.getD tcols.timeTo "")) := by
      unfold ExpireSeconds
      rw [ht]
    simp only [updateTafsRows, ht2, List.singleton_append]

/-- Witness for C2 (amended): one METAR row and one TAF row with
unparsable timestamps — each is logged and each still produces its
storage write, with TTL 10800 and 0 respectively. -/
theorem updateRows_badTimestamp_witness :
    updateMetarsRows parseNone 0 ⟨0, 1, 2, 3⟩ [.ok ["RAW", "UKLL", "BAD", "METAR"]] =
      (["Cannot parse METAR time BAD"],
        [{ loc := "UKLL", value := "METAR RAW", expire := 10800 }]) ∧
    updateTafsRows parseNone 0 ⟨0, 1, 2⟩ [.ok ["TAFRAW", "UKLL", "BAD2"]] =
      (["Cannot parse TAFs time to BAD2"],
        [{ loc := "UKLL", value := "TAFRAW", expire := 0 }]) := by
  have h := updateRows_badTimestamp parseNone 0 ⟨0, 1, 2, 3⟩ ⟨0, 1, 2⟩
    ["RAW", "UKLL", "BAD", "METAR"] ["TAFRAW", "UKLL", "BAD2"] [] [] rfl rfl
  exact h

/-- C2 counterexample: a concrete METAR row whose `observation_time`
field does not parse. The claim states no storage write is performed for
such a row; the row loop nevertheless emits the `SetMETAR` write (with
the fallback TTL 10800), so the claim is false at this input. -/
theorem updateMetarsRows_writes_on_bad_timestamp :
    (updateMetarsRows parseNone 0 ⟨0, 1, 2, 3⟩
        [.ok ["RAW2", "EGLL", "2020-13-99", "SPECI"]]).2 =
      [{ loc := "EGLL", value := "SPECI RAW2", expire := 10800 }] := by
  decide

/-- C8 (amended): with a parsable `Last-Modified` value, the conditional
fetch skips (no body, no error) exactly when the upstream instant is
strictly older than the last successful update; when it is equal or
newer, the body is downloaded. -/
theorem getFromURL_conditional_fetch (parseHTTPDate : String → Option Int)
    (lm body : String) (t lastUpdated : Int)
    (hp : parseHTTPDate lm = some t) :
    (t < lastUpdated →
      GetFromURL parseHTTPDate 200 [lm] 200 body lastUpdated = .ok none) ∧
    (lastUpdated ≤ t →
      GetFromURL parseHTTPDate 200 [lm] 200 body lastUpdated = .ok (some body)) := by
  constructor
  · intro hlt
    simp [GetFromURL, hp, hlt]
  · intro hge
    have hnlt : ¬ t < lastUpdated := by omega
    simp [GetFromURL, hp, hnlt]

/-- Witness for C8 (amended): upstream instant 100 — skipped when the
last successful update is 101 (strictly newer than upstream), downloaded
when it is exactly 100. -/
theorem getFromURL_conditional_fetch_witness :
    GetFromURL parseStamp100 200 ["Thu, 02 Jan 2020 00:00:00 GMT"] 200 "BODY" 101 =
      .ok none ∧
    GetFromURL parseStamp100 200 ["Thu, 02 Jan 2020 00:00:00 GMT"] 200 "BODY" 100 =
      .ok (some "BODY") := by
  constructor
  · exact (getFromURL_conditional_fetch parseStamp100
      "Thu, 02 Jan 2020 00:00:00 GMT" "BODY" 100 101 (by decide)).1 (by decide)
  · exact (getFromURL_conditional_fetch parseStamp100
      "Thu, 02 Jan 2020 00:00:00 GMT" "BODY" 100 100 (by decide)).2 (by decide)

/-- C8 counterexample: when the upstream last-modified instant equals the
last successful update (both 7), the claim says the fetch returns no body
and the cycle is a no-op; the code compares with strict `Before`, so it
downloads the body instead. -/
theorem getFromURL_downloads_on_equal_timestamp :
    GetFromURL (fun _ => some 7) 200 ["stamp"] 200 "B" 7 = .ok (some "B") ∧
    GetFromURL (fun _ => some 7) 200 ["stamp"] 200 "B" 7 ≠ .ok none := by
  refine ⟨rfl, ?_⟩
  rw [show GetFromURL (fun _ => some 7) 200 ["stamp"] 200 "B" 7 =
    .ok (some "B") from rfl]
  simp

/-- C5: a non-positive TTL passed to the TTL-bearing storage writes is
accepted — `SetMETAR`/`SetTAF` report no error — and the written value is
immediately invisible: any read of that key at or after the write instant
returns nil. The storage engine (Redis) is external to the repository and
is modelled from the spec contract (`redisSetEx`); the repository side
passes the TTL through unchanged and adds no check of its own. -/
theorem setReports_nonpositive_ttl (st : Store) (now now' : Int)
    (loc metar taf : String) (t : Int) (ht : t ≤ 0) (hnow : now ≤ now') :
    (SetMETAR st now loc metar t).2 = none ∧
    (SetTAF st now loc taf t).2 = none ∧
    redisGet (SetMETAR st now loc metar t).1 now' (DbRedisICAOPrefixMetar ++ loc) = none ∧
    redisGet (SetTAF st now loc taf t).1 now' (DbRedisICAOPrefixTaf ++ loc) = none := by
  refine ⟨rfl, rfl, ?_, ?_⟩
  · rw [show (SetMETAR st now loc metar t).1 =
        redisSetEx st now (DbRedisICAOPrefixMetar ++ loc) metar t from rfl,
      redisGet_after_set, if_neg (by omega)]
  · rw [show (SetTAF st now loc taf t).1 =
        redisSetEx st now (DbRedisICAOPrefixTaf ++ loc) taf t from rfl,
      redisGet_after_set, if_neg (by omega)]

/-- Witness for C5: TTL 0 (METAR) and TTL -5 (TAF) — both writes succeed
and both values are invisible to reads at the write instant and later. -/
theorem setReports_nonpositive_ttl_witness :
    (SetMETAR emptyStore 0 "UKLL" "M" 0).2 = none ∧
    redisGet (SetMETAR emptyStore 0 "UKLL" "M" 0).1 0
      (DbRedisICAOPrefixMetar ++ "UKLL") = none ∧
    (SetTAF emptyStore 0 "UKLL" "T" (-5)).2 = none ∧
    redisGet (SetTAF emptyStore 0 "UKLL" "T" (-5)).1 3
      (DbRedisICAOPrefixTaf ++ "UKLL") = none := by
  refine ⟨?_, ?_, ?_, ?_⟩
  · exact (setReports_nonpositive_ttl emptyStore 0 0 "UKLL" "M" "T" 0
      (by decide) (by decide)).1
  · exact (setReports_nonpositive_ttl emptyStore 0 0 "UKLL" "M" "T" 0
      (by decide) (by decide)).2.2.1
  · exact (setReports_nonpositive_ttl emptyStore 0 3 "UKLL" "M" "T" (-5)
      (by decide) (by decide)).2.1
  · exact (setReports_nonpositive_ttl emptyStore 0 3 "UKLL" "M" "T" (-5)
      (by decide) (by decide)).2.2.2

/-- C6 (amended): for a single-location request with a syntactically
valid code whose endpoint query succeeds, the response is 404 exactly
when the query returned no record AND the code is absent from the
location keyspace; when the query returned no record but the location
keyspace has the code, the response is a record with only the location
code populated (all other fields zero-valued, hence omitted). Since the
`location`/`all` queries return a record precisely when the location
keyspace has the code, a location present only in the METAR or TAF
keyspace still yields 404 on those endpoints. -/
theorem serveSingleLocation_notFound (pI : String → Option Int)
    (pF : String → Option Rat) (st : Store) (now : Int) (endpoint l : String)
    (ld : List DataICAOLocation)
    (hv : ValidateICAOLocation l = true)
    (hq : queryDatabase pI pF st now endpoint [l] = .ok ld) :
    (serveSingleLocation pI pF st now endpoint l = .httpError 404 ↔
      ld = [] ∧ LocationExists st l = false) ∧
    (ld = [] → LocationExists st l = true →
      serveSingleLocation pI pF st now endpoint l =
        .jsonSingle { Location := l }) := by
  cases ld with
  | nil =>
    cases hex : LocationExists st l with
    | false => simp [serveSingleLocation, hv, hq, hex]
    | true => simp [serveSingleLocation, hv, hq, hex]
  | cons d ds =>
    cases ds with
    | nil => simp [serveSingleLocation, hv, hq]
    | cons d2 ds2 => simp [serveSingleLocation, hv, hq]

/-- Witness for C6 (amended): on the empty store, `/metar/UKLL` is 404
(no METAR and no location record); on a store holding only a location
record for UKLL, `/metar/UKLL` serves the record with only the location
code populated. -/
theorem serveSingleLocation_notFound_witness :
    serveSingleLocation parseNone parseFloatNone emptyStore 0 "metar" "UKLL" =
      .httpError 404 ∧
    serveSingleLocation parseNone parseFloatNone stLocA 0 "metar" "UKLL" =
      .jsonSingle { Location := "UKLL" } := by
  constructor
  · exact (serveSingleLocation_notFound parseNone parseFloatNone emptyStore 0
      "metar" "UKLL" [] (by decide) rfl).1.mpr ⟨rfl, rfl⟩
  · exact (serveSingleLocation_notFound parseNone parseFloatNone stLocA 0
      "metar" "UKLL" [] (by decide) rfl).2 rfl rfl

/-- C6 counterexample: the store `stMetarOnly` holds a current METAR for
UKLL — so UKLL is not wholly unknown to the system, and the METAR
keyspace is relevant to the `/all` endpoint — yet `/all/UKLL` responds
404, because the `all` query only returns records for codes present in
the location keyspace and the existence check consults only that
keyspace. The claim (404 only when absent from every relevant keyspace)
is false at this input. -/
theorem serveSingleLocation_404_despite_metar :
    serveSingleLocation parseNone parseFloatNone stMetarOnly 0 "all" "UKLL" =
      .httpError 404 ∧
    redisGet stMetarOnly 0 (DbRedisICAOPrefixMetar ++ "UKLL") =
      some "METAR X" := by
  decide

/-- C7: the conditional location create never overwrites: when the
location hash key already exists, `SetDataICAOLocation` returns the store
completely unchanged (every previously stored field intact) with no
error; when the key is absent, it writes the hash built from the record
(name, city, country, serialized latitude/longitude/altitude-feet) and
reports no error. -/
theorem setDataICAOLocation_write_once (fmtFloat : Rat → String)
    (fmtInt : Int → String) (st : Store) (d : DataICAOLocation) :
    ((redisHGet st (DbRedisICAOPrefixLocation ++ d.Location)).isSome = true →
      SetDataICAOLocation fmtFloat fmtInt st d = (st, none)) ∧
    ((redisHGet st (DbRedisICAOPrefixLocation ++ d.Location)).isSome = false →
      SetDataICAOLocation fmtFloat fmtInt st d =
        (redisHSet st (DbRedisICAOPrefixLocation ++ d.Location)
          { name := d.Name, city := d.City, country := d.CountryCode,
            lat := fmtFloat d.Latitude, lon := fmtFloat d.Longitude,
            altFt := fmtInt d.AltitudeFeet }, none)) := by
  constructor
  · intro h
    simp [SetDataICAOLocation, h]
  · intro h
    simp [SetDataICAOLocation, h]

/-- Witness for C7: writing a different record under the already-present
key UKLL leaves the store exactly as it was (the stored `locHashA`
record unchanged in every field); creating EGLL on the empty store writes
its hash. -/
theorem setDataICAOLocation_write_once_witness :
    SetDataICAOLocation fmtRatFix fmtIntFix stLocA
      { Location := "UKLL", Name := "New Name", City := "New City",
        CountryCode := "PL", Latitude := 3, Longitude := 4,
        AltitudeFeet := 777 } = (stLocA, none) ∧
    (SetDataICAOLocation fmtRatFix fmtIntFix emptyStore
        { Location := "EGLL", Name := "Heathrow" }).1.hashes =
      [("wx:icao:loc:EGLL",
        { name := "Heathrow", city := "", country := "",
          lat := "9.9", lon := "9.9", altFt := "9" })] := by
  constructor
  · exact (setDataICAOLocation_write_once fmtRatFix fmtIntFix stLocA
      { Location := "UKLL", Name := "New Name", City := "New City",
        CountryCode := "PL", Latitude := 3, Longitude := 4,
        AltitudeFeet := 777 }).1 (by decide)
  · have h := (setDataICAOLocation_write_once fmtRatFix fmtIntFix emptyStore
      { Location := "EGLL", Name := "Heathrow" }).2 (by decide)
    rw [h]
    rfl

/-- C9: a batch request with more than `maxLocations` (16) codes is
rejected with an error status, for every store state — the store does not
occur in the rejection branch, so no storage read can have happened; a
batch of exactly 16 codes that all validate is processed normally (its
query result is served as the JSON array). -/
theorem serveMultipleLocations_batch_limit (pI : String → Option Int)
    (pF : String → Option Rat) (st : Store) (now : Int) (endpoint : String)
    (locs : List String) :
    (maxLocations < locs.length →
      serveMultipleLocations pI pF st now endpoint locs = .httpError 403) ∧
    (locs.length = 16 → (∀ l ∈ locs, ValidateICAOLocation l = true) →
      ∀ ld, queryDatabase pI pF st now endpoint locs = .ok ld →
        serveMultipleLocations pI pF st now endpoint locs = .jsonList ld) := by
  constructor
  · intro h
    simp [serveMultipleLocations, h]
  · intro hlen hval ld hq
    have h1 : ¬ maxLocations < locs.length := by
      simp [maxLocations, hlen]
    have h2 : locs.all (fun l => ValidateICAOLocation l) = true := by
      rw [List.all_eq_true]
      exact hval
    simp [serveMultipleLocations, h1, h2, hq]

/-- Witness for C9: 17 copies of the valid code UKLL are rejected with
403; 16 copies on the empty store are processed normally (the METAR
query yields the empty array). -/
theorem serveMultipleLocations_batch_limit_witness :
    serveMultipleLocations parseNone parseFloatNone emptyStore 0 "metar"
      (List.replicate 17 "UKLL") = .httpError 403 ∧
    serveMultipleLocations parseNone parseFloatNone emptyStore 0 "metar"
      (List.replicate 16 "UKLL") = .jsonList [] := by
  constructor
  · exact (serveMultipleLocations_batch_limit parseNone parseFloatNone
      emptyStore 0 "metar" (List.replicate 17 "UKLL")).1 (by decide)
  · exact (serveMultipleLocations_batch_limit parseNone parseFloatNone
      emptyStore 0 "metar" (List.replicate 16 "UKLL")).2 (by decide)
      (by decide) [] rfl

/-- C10: a location record read back from storage carries
`AltitudeMeters = (AltitudeFeet * 3048).tdiv 10000` — the feet value
multiplied by 3048 and then divided by 10000 in Go `int` arithmetic,
which truncates toward zero (`Int.tdiv`), not rounding to the nearest
meter (e.g. 2 ft yields 0 m although the nearest meter is 1). -/
theorem makeLocationData_altitude (pI : String → Option Int)
    (pF : String → Option Rat) (loc : String) (h : LocHash)
    (alt : Int) (lat lon : Rat)
    (ha : pI h.altFt = some alt) (hla : pF h.lat = some lat)
    (hlo : pF h.lon = some lon) :
    makeLocationData pI pF loc h =
      .ok { Location := loc, Name := h.name, City := h.city,
            CountryCode := h.country, AltitudeFeet := alt,
            AltitudeMeters := (alt * 3048).tdiv 10000,
            Latitude := lat, Longitude := lon } := by
  simp [makeLocationData, ha, hla, hlo]

/-- Witness for C10 at altitude 2 ft: 2 × 3048 / 10000 truncates to 0 m
(rounding to the nearest meter would give 1). -/
theorem makeLocationData_altitude_witness :
    makeLocationData parseInt2 parseFloatZero "UKLL"
      { name := "N", city := "C", country := "UA",
        lat := "0", lon := "0", altFt := "2" } =
      .ok { Location := "UKLL", Name := "N", City := "C",
            CountryCode := "UA", AltitudeFeet := 2, AltitudeMeters := 0,
            Latitude := 0, Longitude := 0 } := by
  have h := makeLocationData_altitude parseInt2 parseFloatZero "UKLL"
    { name := "N", city := "C", country := "UA",
      lat := "0", lon := "0", altFt := "2" } 2 0 0 (by decide) rfl rfl
  rw [h]
  rfl
